import Mathlib

/-!
Shallow embedding of the AutoMoLi automatic motion-light controller
(src/apps/automoli/automoli.py) and proofs about its occupancy state
machine, gating policy and daytime schedule builder.

Modelling conventions:
* Entity states (self.get_state) are modelled as an environment function
  returning Option String (none models a None reading).
* Numeric sensor readings are modelled by a separate environment field
  numReading: some v models float(get_state(sensor)) succeeding with value
  v (at integer precision), none models float raising ValueError on a
  non-numeric state string.
* The TimerHandle set self.handles is a Finset of (id, delay) pairs; run_in
  produces a fresh id from a counter and records the scheduled delay.
* Service calls (self.call_service) and the log lines relevant to the
  claims are accumulated in traces inside the state.
* Times of day are seconds after midnight (0 ≤ t < 86400).
-/

/-- Python value of a daytime light setting: int, str, or anything else
(the source inspects the type at runtime with isinstance). -/
inductive LightSetting
  | int (b : Int)
  | str (s : String)
  | invalid
  deriving DecidableEq, Repr

/-- The currently active daytime configuration, self.active
(daytime, delay, light_setting, is_hue_group; starttime is irrelevant to
the state machine and omitted here). -/
structure Active where
  daytime : String
  delay : Nat
  light_setting : LightSetting
  is_hue_group : Bool
  deriving DecidableEq, Repr

/-- Service calls issued through self.call_service. -/
inductive Call
  | turn_on (entity : String)
  | turn_on_brightness (entity : String) (pct : Int)
  | hue_activate_scene (group scene : String)
  | turn_off (entity : String)
  deriving DecidableEq, Repr

/-- Log lines relevant to the claims (distinct reporting paths). -/
inductive LogEvent
  | illumParseFail (sensor : String)
  | illumBright (blocker : List String)
  | alreadyOn
  | turnedOnScene
  | turnedOnBrightness (pct : Int)
  | humidityBlock
  | turnedOff
  deriving DecidableEq, Repr

/-- Immutable per-room configuration collected by the source during
start-up (self.lights, self.sensors, self.thresholds, ...). -/
structure Config where
  lights : List String
  motionSensors : List String
  humiditySensors : List String
  illuminanceSensors : List String
  disableSwitchEntities : List String
  humidityThreshold : Option Int
  illuminanceThreshold : Option Int
  motionOff : Option String
  delay : Nat

/-- External world: entity states, numeric sensor readings, the
is_hue_group attribute and friendly names. -/
structure Env where
  state : String → Option String
  numReading : String → Option Int
  isHueGroup : String → Bool
  friendlyName : String → String

/-- Mutable state of one AutoMoLi room instance, plus the call and log
traces the claims talk about. -/
structure AMState where
  handles : Finset (Nat × Nat)
  nextHandle : Nat
  active : Active
  calls : List Call
  logs : List LogEvent
  deriving DecidableEq

/-- Python truthiness of a threshold entry (None and 0 are falsy). -/
def isTruthy : Option Int → Bool
  | none => false
  | some v => v != 0

/-- Python truthiness of a get_state result (None and the empty string
are falsy). -/
def stateTruthy : Option String → Bool
  | none => false
  | some s => s != ""

/-- AutoMoLi.is_disabled: some disable switch reads off or a falsy
value. -/
def is_disabled (cfg : Config) (env : Env) : Bool :=
  cfg.disableSwitchEntities.any fun entity =>
    env.state entity == some ("off") || !(stateTruthy (env.state entity))

/-- any get_state(light) == on check used by motion_event and
lights_off. -/
def anyLightOn (cfg : Config) (env : Env) : Bool :=
  cfg.lights.any fun light => env.state light == some ("on")

/-- AutoMoLi.refresh_timer: cancel every scheduled callback, clear the
handle set, and when the active delay is nonzero schedule exactly one new
lights_off callback for that delay. -/
def refresh_timer (st : AMState) : AMState :=
  let st1 : AMState := { st with handles := ∅ }
  if st1.active.delay ≠ 0 then
    { st1 with
      handles := {(st1.nextHandle, st1.active.delay)}
      nextHandle := st1.nextHandle + 1 }
  else st1

/-- The blocker list collected by the humidity loop of lights_off: with a
truthy humidity threshold, every humidity sensor whose numeric reading
meets the threshold (ValueError readings are skipped via continue). -/
def humidityBlocker (cfg : Config) (env : Env) : List String :=
  if isTruthy cfg.humidityThreshold then
    cfg.humiditySensors.filter fun sensor =>
      match env.numReading sensor with
      | none => false
      | some v => cfg.humidityThreshold.getD 0 ≤ v
  else []

/-- The unblocked tail of lights_off: cancel and clear the handles, then
turn every light off when at least one light currently reads on. -/
def lightsOffAction (cfg : Config) (env : Env) (st : AMState) : AMState :=
  if anyLightOn cfg env then
    { st with
      handles := ∅
      calls := st.calls ++ cfg.lights.map Call.turn_off
      logs := st.logs ++ [LogEvent.turnedOff] }
  else { st with handles := ∅ }

/-- AutoMoLi.lights_off: abort when disabled; when the humidity blocker
list is nonempty re-arm via refresh_timer, otherwise run the unblocked
tail. -/
def lights_off (cfg : Config) (env : Env) (st : AMState) : AMState :=
  if is_disabled cfg env then st
  else if humidityBlocker cfg env ≠ [] then
    { refresh_timer st with
      logs := (refresh_timer st).logs ++ [LogEvent.humidityBlock] }
  else lightsOffAction cfg env st

/-- Result of the illuminance gate loop at the top of lights_on. -/
inductive IllumResult
  | pass
  | blocked (blockers : List String)
  | parseFail (sensor : String)
  deriving DecidableEq, Repr

/-- The illuminance loop of lights_on: walk the sensors accumulating
blockers; the first reading that raises ValueError aborts the whole
attempt. -/
def illumCheck (cfg : Config) (env : Env) : List String → List String → IllumResult
  | [], blocker => if blocker ≠ [] then .blocked blocker else .pass
  | sensor :: rest, blocker =>
    match env.numReading sensor with
    | none => .parseFail sensor
    | some v =>
      if cfg.illuminanceThreshold.getD 0 ≤ v then
        illumCheck cfg env rest (blocker ++ [sensor])
      else illumCheck cfg env rest blocker

/-- A propagating Python exception. -/
inductive PyErr
  | valueError (msg : String)
  deriving DecidableEq, Repr

/-- The post-gate tail of lights_on: act on the active light setting;
string settings activate scenes, integer 0 defers to lights_off, other
integers turn every light on with brightness, any other type raises
ValueError. The second component records a propagating exception. -/
def lightsOnAction (cfg : Config) (env : Env) (st : AMState) : AMState × Option PyErr :=
  match st.active.light_setting with
  | .str s =>
    ({ st with
      calls := st.calls ++ cfg.lights.map (fun entity =>
        if st.active.is_hue_group && env.isHueGroup entity then
          Call.hue_activate_scene (env.friendlyName entity) s
        else
          Call.turn_on (if s.startsWith ("scene.") then s else entity))
      logs := st.logs ++ [LogEvent.turnedOnScene] }, none)
  | .int b =>
    if b = 0 then (lights_off cfg env st, none)
    else
      ({ st with
        calls := st.calls ++ cfg.lights.map (fun entity =>
          if entity.startsWith ("switch.") then Call.turn_on entity
          else Call.turn_on_brightness entity b)
        logs := st.logs ++
          (cfg.lights.filter (fun entity => !entity.startsWith ("switch."))).map
            (fun _ => LogEvent.turnedOnBrightness b) }, none)
  | .invalid => (st, some (.valueError ("invalid brightness/scene")))

/-- AutoMoLi.lights_on: the illuminance gate runs first (truthy threshold
only), then the post-gate tail acts on the active light setting. -/
def lights_on (cfg : Config) (env : Env) (st : AMState) : AMState × Option PyErr :=
  match (if isTruthy cfg.illuminanceThreshold then
          illumCheck cfg env cfg.illuminanceSensors [] else .pass) with
  | .parseFail sensor =>
    ({ st with logs := st.logs ++ [LogEvent.illumParseFail sensor] }, none)
  | .blocked blockers =>
    ({ st with logs := st.logs ++ [LogEvent.illumBright blockers] }, none)
  | .pass => lightsOnAction cfg env st

/-- The turn-on-or-log part of motion_event: turn the lights on when no
light currently reads on, otherwise only log. -/
def motionTurnOn (cfg : Config) (env : Env) (st : AMState) : AMState × Option PyErr :=
  if !anyLightOn cfg env then lights_on cfg env st
  else ({ st with logs := st.logs ++ [LogEvent.alreadyOn] }, none)

/-- AutoMoLi.motion_event: return early when disabled; turn the lights on
when none is on, otherwise log; finally refresh the timer unless the
event is the state_changed_detection wrapper event. -/
def motion_event (cfg : Config) (env : Env) (event : String) (st : AMState) :
    AMState × Option PyErr :=
  if is_disabled cfg env then (st, none)
  else if (motionTurnOn cfg env st).2.isSome then motionTurnOn cfg env st
  else if event ≠ "state_changed_detection" then
    (refresh_timer (motionTurnOn cfg env st).1, none)
  else motionTurnOn cfg env st

/-- AutoMoLi.motion_detected: cancel all scheduled callbacks, clear the
handle set, then invoke the motion event handler with the
state_changed_detection event (the source spawns this call without
awaiting it; we model the intended invocation). -/
def motion_detected (cfg : Config) (env : Env) (st : AMState) : AMState × Option PyErr :=
  motion_event cfg env "state_changed_detection" { st with handles := ∅ }

/-- AutoMoLi.motion_cleared: when every motion sensor reads the
configured motion-off state, refresh the timer; otherwise cancel and
clear any scheduled callbacks. -/
def motion_cleared (cfg : Config) (env : Env) (st : AMState) : AMState :=
  if cfg.motionSensors.all fun sensor => env.state sensor == cfg.motionOff then
    refresh_timer st
  else { st with handles := ∅ }

/-- The three entry points claim C1 quantifies over. -/
inductive Op
  | detected
  | cleared
  | refresh
  deriving DecidableEq, Repr

/-- One dispatcher callback; a propagating exception is absorbed by the
dispatcher and the state mutated so far persists. -/
def step (cfg : Config) (env : Env) : Op → AMState → AMState
  | .detected, st => (motion_detected cfg env st).1
  | .cleared, st => motion_cleared cfg env st
  | .refresh, st => refresh_timer st

/-- A sequence of dispatcher callbacks. -/
def run (cfg : Config) (env : Env) (ops : List Op) (st : AMState) : AMState :=
  ops.foldl (fun s op => step cfg env op s) st

/-- State right after start-up: no handles scheduled, the built active
daytime installed. -/
def initState (active : Active) : AMState :=
  { handles := ∅, nextHandle := 0, active := active, calls := [], logs := [] }

/-- Concrete daytime setting used by the scenario fixtures. -/
def activeDay : Active :=
  { daytime := "day", delay := 150, light_setting := .int 100, is_hue_group := false }

/-- Fixture configuration: one light, one motion sensor, one humidity and
one illuminance sensor, no thresholds, no disable switches. -/
def cfgOn : Config :=
  { lights := ["light.wz"]
    motionSensors := ["binary_sensor.motion_sensor_wz"]
    humiditySensors := ["sensor.humidity_wz"]
    illuminanceSensors := ["sensor.illumination_wz"]
    disableSwitchEntities := []
    humidityThreshold := none
    illuminanceThreshold := none
    motionOff := some ("off")
    delay := 150 }

/-- Fixture configuration with a disable switch. -/
def cfgDisabled : Config :=
  { cfgOn with disableSwitchEntities := ["input_boolean.automoli_wz"] }

/-- Fixture environment: the disable switch reads off, everything else
reads on; no numeric readings. -/
def envDisabled : Env :=
  { state := fun e => if e = ("input_boolean.automoli_wz") then some ("off") else some ("on")
    numReading := fun _ => none
    isHueGroup := fun _ => false
    friendlyName := fun e => e }

/-- Fixture environment: every entity reads on; no numeric readings. -/
def envOn : Env :=
  { state := fun _ => some ("on")
    numReading := fun _ => none
    isHueGroup := fun _ => false
    friendlyName := fun e => e }

/-- Fixture start state with no scheduled handles. -/
def st0 : AMState := initState activeDay

/-- Fixture state with one scheduled lights_off handle. -/
def stCex : AMState :=
  { handles := {(0, 150)}, nextHandle := 1, active := activeDay, calls := [], logs := [] }

theorem refresh_timer_handles (st : AMState) :
    (refresh_timer st).handles =
      if st.active.delay = 0 then ∅ else {(st.nextHandle, st.active.delay)} := by
  unfold refresh_timer
  by_cases h : st.active.delay = 0 <;> simp [h]

theorem refresh_timer_card (st : AMState) :
    (refresh_timer st).handles.card = if st.active.delay = 0 then 0 else 1 := by
  rw [refresh_timer_handles]
  by_cases h : st.active.delay = 0 <;> simp [h]

theorem lightsOffAction_card (cfg : Config) (env : Env) (st : AMState) :
    (lightsOffAction cfg env st).handles.card ≤ 1 := by
  unfold lightsOffAction
  split <;> simp

theorem lights_off_card (cfg : Config) (env : Env) (st : AMState)
    (h : st.handles.card ≤ 1) : (lights_off cfg env st).handles.card ≤ 1 := by
  unfold lights_off
  split
  · exact h
  · split
    · show (refresh_timer st).handles.card ≤ 1
      rw [refresh_timer_card]
      split <;> simp
    · exact lightsOffAction_card cfg env st

theorem foldl_handles_eq {α : Type} (f : AMState → α → AMState)
    (hf : ∀ s a, (f s a).handles = s.handles) :
    ∀ (l : List α) (st : AMState), (l.foldl f st).handles = st.handles := by
  intro l
  induction l with
  | nil => intro st; rfl
  | cons a rest ih => intro st; rw [List.foldl_cons, ih, hf]

theorem lightsOnAction_card (cfg : Config) (env : Env) (st : AMState)
    (h : st.handles.card ≤ 1) : ((lightsOnAction cfg env st).1).handles.card ≤ 1 := by
  unfold lightsOnAction
  split
  · exact h
  · split
    · exact lights_off_card cfg env st h
    · exact h
  · exact h

theorem lights_on_card (cfg : Config) (env : Env) (st : AMState)
    (h : st.handles.card ≤ 1) : ((lights_on cfg env st).1).handles.card ≤ 1 := by
  unfold lights_on
  split
  · exact h
  · exact h
  · exact lightsOnAction_card cfg env st h

theorem motion_event_card (cfg : Config) (env : Env) (event : String) (st : AMState)
    (h : st.handles.card ≤ 1) : ((motion_event cfg env event st).1).handles.card ≤ 1 := by
  have hr : ((motionTurnOn cfg env st).1).handles.card ≤ 1 := by
    unfold motionTurnOn
    split
    · exact lights_on_card cfg env st h
    · exact h
  unfold motion_event
  split
  · exact h
  · split
    · exact hr
    · split
      · show (refresh_timer (motionTurnOn cfg env st).1).handles.card ≤ 1
        rw [refresh_timer_card]
        split <;> simp
      · exact hr

theorem step_card (cfg : Config) (env : Env) (op : Op) (st : AMState)
    (h : st.handles.card ≤ 1) : (step cfg env op st).handles.card ≤ 1 := by
  cases op with
  | detected =>
    show ((motion_detected cfg env st).1).handles.card ≤ 1
    unfold motion_detected
    exact motion_event_card cfg env _ _ (by simp)
  | cleared =>
    show (motion_cleared cfg env st).handles.card ≤ 1
    unfold motion_cleared
    split
    · rw [refresh_timer_card]
      split <;> simp
    · simp
  | refresh =>
    show (refresh_timer st).handles.card ≤ 1
    rw [refresh_timer_card]
    split <;> simp

theorem run_card (cfg : Config) (env : Env) (ops : List Op) (st : AMState)
    (h : st.handles.card ≤ 1) : (run cfg env ops st).handles.card ≤ 1 := by
  induction ops generalizing st with
  | nil => simpa [run] using h
  | cons op rest ih =>
    rw [run, List.foldl_cons]
    exact ih _ (step_card cfg env op st h)

/-- C1: starting from initialization, any sequence of motion_detected,
motion_cleared and refresh_timer callbacks leaves at most one handle in
the TimerHandle set, and immediately after any refresh_timer call the set
holds exactly one handle when the active delay is nonzero and none when
the delay is zero. -/
theorem automoli_C1_timer_handle_invariant :
    (∀ (cfg : Config) (env : Env) (active : Active) (ops : List Op),
      (run cfg env ops (initState active)).handles.card ≤ 1) ∧
    (∀ st : AMState, (refresh_timer st).handles.card =
      if st.active.delay = 0 then 0 else 1) := by
  constructor
  · intro cfg env active ops
    exact run_card cfg env ops (initState active) (by simp [initState])
  · exact refresh_timer_card

/-- C2 counterexample: with a disable switch reading off, the
motion_detected state-change path still empties the TimerHandle set, so a
motion event is not fully ignored while disabled. -/
theorem automoli_C2_cex :
    is_disabled cfgDisabled envDisabled = true ∧
    ((motion_detected cfgDisabled envDisabled stCex).1).handles ≠ stCex.handles := by
  decide

/-- C2 (amended): while any disable switch reads off or a falsy value,
motion_event leaves the state untouched and issues no call; the
motion_detected state-change path still cancels and clears any pending
timer handles before the disable check, but changes nothing else. -/
theorem automoli_C2_amended (cfg : Config) (env : Env) (event : String) (st : AMState)
    (hd : is_disabled cfg env = true) :
    motion_event cfg env event st = (st, none) ∧
    motion_detected cfg env st = ({ st with handles := ∅ }, none) := by
  constructor
  · unfold motion_event
    simp [hd]
  · unfold motion_detected motion_event
    simp [hd]

/-- C2 amended witness at the disabled fixture. -/
theorem automoli_C2_amended_witness :
    is_disabled cfgDisabled envDisabled = true ∧
    motion_event cfgDisabled envDisabled ("xiaomi_aqara.motion") stCex = (stCex, none) ∧
    motion_detected cfgDisabled envDisabled stCex = ({ stCex with handles := ∅ }, none) :=
  ⟨by decide,
   (automoli_C2_amended cfgDisabled envDisabled ("xiaomi_aqara.motion") stCex (by decide)).1,
   (automoli_C2_amended cfgDisabled envDisabled ("xiaomi_aqara.motion") stCex (by decide)).2⟩

/-- C3 counterexample: with lights already on, an active delay of 150 and
the engine enabled, the discrete state-change edge path leaves the
TimerHandle set empty (it does not restart the grace timer), while the
continuous motion-event path schedules a fresh timer - the reverse of the
claim. -/
theorem automoli_C3_cex :
    is_disabled cfgOn envOn = false ∧ anyLightOn cfgOn envOn = true ∧
    st0.active.delay ≠ 0 ∧
    ((motion_detected cfgOn envOn st0).1).handles = ∅ ∧
    ((motion_event cfgOn envOn ("xiaomi_aqara.motion") st0).1).handles = {(0, 150)} := by
  decide

/-- C3 (amended): when the engine is enabled and some light already reads
on, the state-change edge path (motion_detected) ends with an empty
TimerHandle set, while any other motion event ends with the timer
refreshed: one fresh handle for the active delay, or none when the delay
is zero. -/
theorem automoli_C3_amended (cfg : Config) (env : Env) (st : AMState)
    (hd : is_disabled cfg env = false) (hon : anyLightOn cfg env = true)
    (event : String) (hev : event ≠ "state_changed_detection") :
    ((motion_detected cfg env st).1).handles = ∅ ∧
    ((motion_event cfg env event st).1).handles =
      (if st.active.delay = 0 then ∅ else {(st.nextHandle, st.active.delay)}) := by
  constructor
  · unfold motion_detected motion_event motionTurnOn
    simp [hd, hon]
  · unfold motion_event motionTurnOn
    simp [hd, hon, hev, refresh_timer_handles]

/-- C3 amended witness at the lights-on fixture. -/
theorem automoli_C3_amended_witness :
    is_disabled cfgOn envOn = false ∧ anyLightOn cfgOn envOn = true ∧
    ((motion_detected cfgOn envOn st0).1).handles = ∅ ∧
    ((motion_event cfgOn envOn ("xiaomi_aqara.motion") st0).1).handles =
      (if st0.active.delay = 0 then ∅ else {(st0.nextHandle, st0.active.delay)}) :=
  ⟨by decide, by decide,
   (automoli_C3_amended cfgOn envOn st0 (by decide) (by decide)
     ("xiaomi_aqara.motion") (by decide)).1,
   (automoli_C3_amended cfgOn envOn st0 (by decide) (by decide)
     ("xiaomi_aqara.motion") (by decide)).2⟩

/-- Character of a decimal digit. -/
def digitChar (d : Nat) : Char := Char.ofNat (48 + d)

/-- Numeric value of a decimal digit character, none for non-digits. -/
def digitVal (c : Char) : Option Nat :=
  if 48 ≤ c.toNat ∧ c.toNat ≤ 57 then some (c.toNat - 48) else none

/-- Two-digit decimal field. -/
def parse2 (a b : Char) : Option Nat := do
  let x ← digitVal a
  let y ← digitVal b
  pure (10 * x + y)

/-- Models appdaemon parse_time on the HH:MM:SS strings the source feeds
it, over the character list: seconds after midnight; none models
ValueError. -/
def parseTimeL : List Char → Option Nat
  | [c0, c1, c2, c3, c4, c5, c6, c7] =>
    if c2 = ':' ∧ c5 = ':' then
      match parse2 c0 c1, parse2 c3 c4, parse2 c6 c7 with
      | some hh, some mm, some ss =>
        if hh < 24 ∧ mm < 60 ∧ ss < 60 then some (hh * 3600 + mm * 60 + ss)
        else none
      | _, _, _ => none
    else none
  | _ => none

/-- Models appdaemon parse_time on a string. -/
def parseTime (s : String) : Option Nat := parseTimeL s.data

/-- Models datetime.time.fromisoformat restricted to the HH:MM and
HH:MM:SS shapes configuration start times take; none models the
ValueError raised on anything else (including the string None). -/
def parseIsoL : List Char → Option Nat
  | [c0, c1, c2, c3, c4] =>
    if c2 = ':' then
      match parse2 c0 c1, parse2 c3 c4 with
      | some hh, some mm =>
        if hh < 24 ∧ mm < 60 then some (hh * 3600 + mm * 60) else none
      | _, _ => none
    else none
  | l => parseTimeL l

/-- Models datetime.time.fromisoformat on a string. -/
def parseIso (s : String) : Option Nat := parseIsoL s.data

/-- Rendering of a time of day (whole minutes) back to the HH:MM shape
the configuration uses. -/
def fmtTime (t : Nat) : String :=
  String.mk [digitChar (t / 3600 / 10), digitChar (t / 3600 % 10), ':',
             digitChar (t % 3600 / 60 / 10), digitChar (t % 3600 / 60 % 10)]

/-- Models appdaemon now_is_between on times of day: inclusive at both
ends, spanning midnight when the end is before the start. -/
def nowIsBetween (s e now : Nat) : Bool :=
  if e < s then decide (s ≤ now) || decide (now ≤ e)
  else decide (s ≤ now) && decide (now ≤ e)

/-- One raw daytimes configuration entry (the dict keys the source
reads). -/
structure RawDaytime where
  name : Option String := none
  delay : Option Nat := none
  light : Option LightSetting := none
  starttime : Option String := none
  deriving DecidableEq, Repr, Inhabited

/-- One processed daytime (the dict built inside build_daytimes, with the
start time kept in parsed form). -/
structure DaytimeCfg where
  daytime : String
  delay : Nat
  starttime : Nat
  light_setting : LightSetting
  is_hue_group : Bool
  deriving DecidableEq, Repr

/-- How build_daytimes can fail: an uncaught TypeError from
None + a string when the start time key is missing, the named ValueError
re-raised on a start-time parse failure, an uncaught ValueError from
time.fromisoformat on the next entry lookup, and the duplicate start time
ValueError. -/
inductive BuildErr
  | typeErr
  | badStart (name : String)
  | isoErr
  | dupStart (t : Nat)
  deriving DecidableEq, Repr

/-- Python str() of an optional string (str(None) is the string None). -/
def pyStr : Option String → String
  | none => "None"
  | some s => s

/-- Default entry name, DEFAULT_NAME suffixed with the loop index. -/
def dtName (daytime : RawDaytime) (idx : Nat) : String :=
  daytime.name.getD ("daytime_" ++ toString idx)

/-- The processed configuration dict for one daytime entry. -/
def dtEntry (cfg : Config) (env : Env) (daytime : RawDaytime) (idx : Nat)
    (dt_start : Nat) : DaytimeCfg :=
  { daytime := dtName daytime idx
    delay := daytime.delay.getD cfg.delay
    starttime := dt_start
    light_setting := daytime.light.getD (.int 100)
    is_hue_group :=
      match daytime.light.getD (.int 100) with
      | .str s => !s.startsWith ("scene.") && cfg.lights.any env.isHueGroup
      | _ => false }

/-- The AutoMoLi.build_daytimes loop, modelled structurally on the
unprocessed suffix; idx is the enumerate index, daytimes the full list
(used for the next-entry lookup), starttimes the accumulated parsed start
times, active the daytime installed so far by the now_is_between check
and sched the run_daily registrations made so far. -/
def buildLoop (cfg : Config) (env : Env) (now : Nat) (daytimes : List RawDaytime) :
    List RawDaytime → Nat → List Nat → Option DaytimeCfg → List (Nat × DaytimeCfg) →
    Except BuildErr (Option DaytimeCfg × List (Nat × DaytimeCfg))
  | [], _, _, active, sched => .ok (active, sched)
  | daytime :: rest, idx, starttimes, active, sched =>
    match daytime.starttime with
    | none => .error .typeErr
    | some raw =>
      match parseTime (raw ++ ":00") with
      | none => .error (.badStart (dtName daytime idx))
      | some dt_start =>
        match parseIso (pyStr ((daytimes.getD ((idx + 1) % daytimes.length)
            default).starttime)) with
        | none => .error .isoErr
        | some next_dt_start =>
          if dt_start ∈ starttimes then .error (.dupStart dt_start)
          else
            buildLoop cfg env now daytimes rest (idx + 1) (dt_start :: starttimes)
              (if nowIsBetween dt_start next_dt_start now then
                some (dtEntry cfg env daytime idx dt_start)
              else active)
              (sched ++ [(dt_start, dtEntry cfg env daytime idx dt_start)])

/-- AutoMoLi.build_daytimes: process the raw entries in order; on success
return the daytime installed as self.active (via switch_daytime with
initial set) and the run_daily registrations. -/
def build_daytimes (cfg : Config) (env : Env) (now : Nat)
    (daytimes : List RawDaytime) :
    Except BuildErr (Option DaytimeCfg × List (Nat × DaytimeCfg)) :=
  buildLoop cfg env now daytimes daytimes 0 [] none []

/-- The parsed start time of a raw entry, none when the start time is
missing or does not parse. -/
def parsedStart (d : RawDaytime) : Option Nat :=
  match d.starttime with
  | none => none
  | some raw => parseTime (raw ++ ":00")

theorem parseTimeL_length {l : List Char} {t : Nat} (h : parseTimeL l = some t) :
    l.length = 8 := by
  rcases l with _ | ⟨a, _ | ⟨b, _ | ⟨c, _ | ⟨d, _ | ⟨e, _ | ⟨f, _ | ⟨g, _ | ⟨i, _ | ⟨j, l⟩⟩⟩⟩⟩⟩⟩⟩⟩
  all_goals first
    | rfl
    | simp [parseTimeL] at h

theorem list_len5 {α : Type} {l : List α} (h : l.length = 5) :
    ∃ a b c d e, l = [a, b, c, d, e] := by
  rcases l with _ | ⟨a, _ | ⟨b, _ | ⟨c, _ | ⟨d, _ | ⟨e, _ | ⟨x, l⟩⟩⟩⟩⟩⟩ <;>
    simp at h
  exact ⟨a, b, c, d, e, rfl⟩

theorem parseTime_append_iso {raw : String} {t : Nat}
    (h : parseTime (raw ++ (":00")) = some t) : parseIso raw = some t := by
  unfold parseTime at h
  rw [String.data_append] at h
  have hlen : raw.data.length = 5 := by
    have h8 := parseTimeL_length h
    rw [List.length_append] at h8
    have h3 : (String.data (":00")) = [':', '0', '0'] := rfl
    rw [h3] at h8
    simp only [List.length_cons, List.length_nil] at h8
    omega
  obtain ⟨a, b, c, d, e, hd⟩ := list_len5 hlen
  unfold parseIso
  rw [hd] at h ⊢
  have hdata : ([a, b, c, d, e] ++ (String.data (":00"))) =
      [a, b, c, d, e, ':', '0', '0'] := rfl
  rw [hdata] at h
  simp only [parseTimeL] at h
  by_cases hc : c = ':'
  · subst hc
    have h00 : parse2 ('0') ('0') = some 0 := rfl
    rcases hab : parse2 a b with _ | hh
    · simp [hab] at h
    rcases hde : parse2 d e with _ | mm
    · simp [hab, hde] at h
    simp [hab, hde, h00] at h
    simp [parseIsoL, hab, hde]
    omega
  · rw [if_neg (fun hcc => hc hcc.1)] at h
    exact absurd h (by simp)

/-- C7: the source documents the intent that a missing start time raises
the named ConfigError (the message reads missing start time in daytime),
but for a missing starttime key the expression None + a string raises an
uncaught TypeError that names nothing; a present but unparseable start
time does raise the named error. -/
theorem automoli_C7_missing_start :
    build_daytimes cfgOn envOn 28800 [{ name := some ("morning") }] =
      .error .typeErr ∧
    build_daytimes cfgOn envOn 28800
      [{ name := some ("morning"), starttime := some ("99:99") }] =
      .error (.badStart ("morning")) :=
  ⟨rfl, rfl⟩

theorem buildLoop_dup (cfg : Config) (env : Env) (now : Nat)
    (daytimes : List RawDaytime)
    (hall : ∀ d ∈ daytimes, (parsedStart d).isSome) :
    ∀ (rest : List RawDaytime) (idx : Nat) (starttimes : List Nat)
      (active : Option DaytimeCfg) (sched : List (Nat × DaytimeCfg)),
      rest = daytimes.drop idx →
      (∃ k, idx ≤ k ∧ k < daytimes.length ∧
        ((∃ t, parsedStart (daytimes.getD k default) = some t ∧ t ∈ starttimes) ∨
         (∃ k2, idx ≤ k2 ∧ k2 < k ∧
           parsedStart (daytimes.getD k2 default) =
             parsedStart (daytimes.getD k default)))) →
      ∃ t, buildLoop cfg env now daytimes rest idx starttimes active sched =
        .error (.dupStart t) := by
  intro rest
  induction rest with
  | nil =>
    intro idx starttimes active sched hrest hwit
    obtain ⟨k, hk1, hk2, -⟩ := hwit
    have hle : daytimes.length ≤ idx := by
      by_contra hlt
      push_neg at hlt
      rw [List.drop_eq_getElem_cons hlt] at hrest
      exact List.noConfusion hrest
    omega
  | cons daytime rest2 ih =>
    intro idx starttimes active sched hrest hwit
    have hidx : idx < daytimes.length := by
      by_contra hge
      push_neg at hge
      rw [List.drop_eq_nil_of_le hge] at hrest
      exact List.noConfusion hrest
    rw [List.drop_eq_getElem_cons hidx] at hrest
    injection hrest with hday hrest2
    have hmemd : daytime ∈ daytimes := by
      rw [hday]
      exact List.getElem_mem hidx
    have hgidx : daytimes.getD idx default = daytime := by
      rw [List.getD_eq_getElem daytimes default hidx, hday]
    obtain ⟨raw, hst, t0, hpt⟩ :
        ∃ raw, daytime.starttime = some raw ∧
          ∃ t0, parseTime (raw ++ (":00")) = some t0 := by
      have hs := hall daytime hmemd
      unfold parsedStart at hs
      cases hraw : daytime.starttime with
      | none => rw [hraw] at hs; exact absurd hs (by simp)
      | some raw =>
        rw [hraw] at hs
        exact ⟨raw, rfl, (Option.isSome_iff_exists.mp hs).imp (fun t ht => ht)⟩
    have hnlt : (idx + 1) % daytimes.length < daytimes.length :=
      Nat.mod_lt _ (Nat.lt_of_le_of_lt (Nat.zero_le idx) hidx)
    obtain ⟨raw2, hst2, t2, hpt2⟩ :
        ∃ raw2, (daytimes.getD ((idx + 1) % daytimes.length) default).starttime =
            some raw2 ∧ ∃ t2, parseTime (raw2 ++ (":00")) = some t2 := by
      have hmemn : daytimes.getD ((idx + 1) % daytimes.length) default ∈ daytimes := by
        rw [List.getD_eq_getElem daytimes default hnlt]
        exact List.getElem_mem hnlt
      have hs := hall _ hmemn
      unfold parsedStart at hs
      cases hraw : (daytimes.getD ((idx + 1) % daytimes.length) default).starttime with
      | none => rw [hraw] at hs; exact absurd hs (by simp)
      | some raw2 =>
        rw [hraw] at hs
        exact ⟨raw2, rfl, (Option.isSome_iff_exists.mp hs).imp (fun t ht => ht)⟩
    have hiso : parseIso (pyStr ((daytimes.getD ((idx + 1) % daytimes.length)
        default).starttime)) = some t2 := by
      rw [hst2]
      exact parseTime_append_iso hpt2
    have hpt0 : parsedStart daytime = some t0 := by
      unfold parsedStart
      rw [hst]
      exact hpt
    by_cases hmem : t0 ∈ starttimes
    · refine ⟨t0, ?_⟩
      simp only [buildLoop, hst, hpt, hiso, if_pos hmem]
    · have hgoal : buildLoop cfg env now daytimes (daytime :: rest2) idx starttimes
          active sched =
          buildLoop cfg env now daytimes rest2 (idx + 1) (t0 :: starttimes)
            (if nowIsBetween t0 t2 now then
              some (dtEntry cfg env daytime idx t0) else active)
            (sched ++ [(t0, dtEntry cfg env daytime idx t0)]) := by
        simp only [buildLoop, hst, hpt, hiso, if_neg hmem]
      rw [hgoal]
      apply ih (idx + 1) (t0 :: starttimes) _ _ hrest2
      obtain ⟨k, hk1, hk2, hcase⟩ := hwit
      rcases hcase with ⟨t, hptk, htm⟩ | ⟨k2, hk21, hk22, heqp⟩
      · rcases Nat.eq_or_lt_of_le hk1 with heq | hlt
        · exfalso
          rw [← heq, hgidx, hpt0] at hptk
          injection hptk with htt
          exact hmem (htt ▸ htm)
        · exact ⟨k, hlt, hk2, Or.inl ⟨t, hptk, List.mem_cons_of_mem _ htm⟩⟩
      · rcases Nat.eq_or_lt_of_le hk21 with heq | hlt
        · refine ⟨k, by omega, hk2, Or.inl ⟨t0, ?_, List.mem_cons_self _ _⟩⟩
          rw [← heqp, ← heq, hgidx]
          exact hpt0
        · exact ⟨k, by omega, hk2, Or.inr ⟨k2, hlt, hk22, heqp⟩⟩

/-- C6: when every raw daytime entry has a start time that parses and two
entries share the same parsed start time, build_daytimes always aborts
with the duplicate start time ConfigError, producing no schedule. -/
theorem automoli_C6_duplicate_start (cfg : Config) (env : Env) (now : Nat)
    (daytimes : List RawDaytime)
    (hall : ∀ d ∈ daytimes, (parsedStart d).isSome)
    (i j : Nat) (hij : i < j) (hj : j < daytimes.length)
    (hdup : parsedStart (daytimes.getD i default) =
      parsedStart (daytimes.getD j default)) :
    ∃ t, build_daytimes cfg env now daytimes = .error (.dupStart t) := by
  unfold build_daytimes
  exact buildLoop_dup cfg env now daytimes hall daytimes 0 [] none []
    (List.drop_zero daytimes).symm
    ⟨j, Nat.zero_le j, hj, Or.inr ⟨i, Nat.zero_le i, hij, hdup⟩⟩

/-- C6 witness: two entries whose start times both parse to 08:00. -/
theorem automoli_C6_duplicate_start_witness :
    (∀ d ∈ [({ starttime := some ("08:00") } : RawDaytime),
            { starttime := some ("08:00") }], (parsedStart d).isSome) ∧
    ∃ t, build_daytimes cfgOn envOn 43200
      [{ starttime := some ("08:00") }, { starttime := some ("08:00") }] =
      .error (.dupStart t) :=
  ⟨by decide,
   automoli_C6_duplicate_start cfgOn envOn 43200
     [{ starttime := some ("08:00") }, { starttime := some ("08:00") }]
     (by decide) 0 1 (by decide) (by decide) (by decide)⟩

/-- Fixture raw daytime entry with an invalid (neither int nor str) light
setting. -/
def rawNight : RawDaytime :=
  { name := some ("night"), starttime := some ("22:30"), light := some .invalid }

/-- C9 counterexample: a daytime entry whose light setting has an invalid
type (neither int nor str) passes build_daytimes without any error and
survives into the schedule; the ValueError is only raised later, when
lights_on executes with that setting active. -/
theorem automoli_C9_cex :
    build_daytimes cfgOn envOn 28800 [rawNight] =
      .ok (none, [(81000, { daytime := "night"
                            delay := 150
                            starttime := 81000
                            light_setting := .invalid
                            is_hue_group := false })]) ∧
    (lights_on cfgOn envOn
      { st0 with active := { activeDay with light_setting := .invalid } }).2 =
      some (.valueError ("invalid brightness/scene")) :=
  ⟨rfl, rfl⟩

/-- C9 (amended): build_daytimes never inspects the light setting type:
any single-entry schedule whose start time parses builds successfully
whatever its light value is, and the invalid-type ValueError surfaces
only in lights_on, at action time, once the gate is passed. -/
theorem automoli_C9_amended (cfg : Config) (env : Env) (now : Nat) (d : RawDaytime)
    (hparse : (parsedStart d).isSome = true) :
    (∃ r, build_daytimes cfg env now [d] = .ok r) ∧
    (∀ st : AMState, isTruthy cfg.illuminanceThreshold = false →
      st.active.light_setting = .invalid →
      lights_on cfg env st = (st, some (.valueError ("invalid brightness/scene")))) := by
  constructor
  · obtain ⟨raw, hst, t0, hpt⟩ :
        ∃ raw, d.starttime = some raw ∧ ∃ t0, parseTime (raw ++ (":00")) = some t0 := by
      unfold parsedStart at hparse
      cases hraw : d.starttime with
      | none => rw [hraw] at hparse; exact absurd hparse (by simp)
      | some raw =>
        rw [hraw] at hparse
        exact ⟨raw, rfl, (Option.isSome_iff_exists.mp hparse).imp (fun t ht => ht)⟩
    have hiso : parseIso (pyStr (([d].getD (1 % ([d] : List RawDaytime).length)
        default).starttime)) = some t0 := by
      have h1 : (1 % ([d] : List RawDaytime).length) = 0 := by
        simp
      rw [h1]
      show parseIso (pyStr d.starttime) = some t0
      rw [hst]
      exact parseTime_append_iso hpt
    refine ⟨(if nowIsBetween t0 t0 now then some (dtEntry cfg env d 0 t0)
             else none, [(t0, dtEntry cfg env d 0 t0)]), ?_⟩
    simp only [build_daytimes, buildLoop, hst, hpt, hiso]
    simp [buildLoop]
  · intro st hthr hset
    simp [lights_on, hthr, lightsOnAction, hset]

/-- C9 amended witness at the invalid-light fixture. -/
theorem automoli_C9_amended_witness :
    (parsedStart rawNight).isSome = true ∧
    (∃ r, build_daytimes cfgOn envOn 28800 [rawNight] = .ok r) ∧
    lights_on cfgOn envOn
      { st0 with active := { activeDay with light_setting := .invalid } } =
      ({ st0 with active := { activeDay with light_setting := .invalid } },
        some (.valueError ("invalid brightness/scene"))) :=
  ⟨by decide,
   (automoli_C9_amended cfgOn envOn 28800 _ (by decide)).1,
   (automoli_C9_amended cfgOn envOn 28800 rawNight
     (by decide)).2 _ (by decide) rfl⟩

theorem illumCheck_parseFail (cfg : Config) (env : Env) :
    ∀ (sensors blocker : List String),
      (∃ s ∈ sensors, env.numReading s = none) →
      ∃ s, env.numReading s = none ∧
        illumCheck cfg env sensors blocker = .parseFail s := by
  intro sensors
  induction sensors with
  | nil =>
    intro blocker h
    simp at h
  | cons s rest ih =>
    intro blocker h
    cases hr : env.numReading s with
    | none => exact ⟨s, hr, by simp [illumCheck, hr]⟩
    | some v =>
      obtain ⟨s2, hs2mem, hs2⟩ := h
      rcases List.mem_cons.mp hs2mem with rfl | hmem
      · rw [hr] at hs2
        exact absurd hs2 (by simp)
      · by_cases hcmp : cfg.illuminanceThreshold.getD 0 ≤ v
        · obtain ⟨s3, hn3, hs3⟩ := ih (blocker ++ [s]) ⟨s2, hmem, hs2⟩
          exact ⟨s3, hn3, by simp [illumCheck, hr, hcmp, hs3]⟩
        · obtain ⟨s3, hn3, hs3⟩ := ih blocker ⟨s2, hmem, hs2⟩
          exact ⟨s3, hn3, by simp [illumCheck, hr, hcmp, hs3]⟩

theorem illumCheck_all_some (cfg : Config) (env : Env) :
    ∀ (sensors blocker : List String),
      (∀ s ∈ sensors, (env.numReading s).isSome = true) →
      illumCheck cfg env sensors blocker =
        (if (blocker ++ sensors.filter (fun s =>
            decide (cfg.illuminanceThreshold.getD 0 ≤ (env.numReading s).getD 0))) = []
         then .pass
         else .blocked (blocker ++ sensors.filter (fun s =>
            decide (cfg.illuminanceThreshold.getD 0 ≤ (env.numReading s).getD 0)))) := by
  intro sensors
  induction sensors with
  | nil =>
    intro blocker hall
    by_cases hb : blocker = [] <;> simp [illumCheck, hb]
  | cons s rest ih =>
    intro blocker hall
    have hs := hall s (List.mem_cons_self s rest)
    obtain ⟨v, hv⟩ := Option.isSome_iff_exists.mp hs
    have hrest : ∀ s2 ∈ rest, (env.numReading s2).isSome = true :=
      fun s2 hs2 => hall s2 (List.mem_cons_of_mem s hs2)
    by_cases hcmp : cfg.illuminanceThreshold.getD 0 ≤ v
    · have := ih (blocker ++ [s]) hrest
      rw [List.append_assoc] at this
      simp [illumCheck, hv, hcmp, this]
    · have := ih blocker hrest
      simp [illumCheck, hv, hcmp, this]

/-- C4: with a truthy illuminance threshold, lights_on walks the
illuminance sensors; an unreadable reading aborts the whole turn-on
attempt with no actuation call and the distinct parse-failure log line,
and when every reading is numeric but some reading reaches the
threshold, turn-on is blocked with no actuation call and the
already-bright log naming the blocking sensors. -/
theorem automoli_C4_illuminance_gate (cfg : Config) (env : Env) (st : AMState)
    (hthr : isTruthy cfg.illuminanceThreshold = true) :
    ((∃ s ∈ cfg.illuminanceSensors, env.numReading s = none) →
      ∃ s, env.numReading s = none ∧
        lights_on cfg env st =
          ({ st with logs := st.logs ++ [LogEvent.illumParseFail s] }, none)) ∧
    ((∀ s ∈ cfg.illuminanceSensors, (env.numReading s).isSome = true) →
     (∃ s ∈ cfg.illuminanceSensors, ∃ v, env.numReading s = some v ∧
        cfg.illuminanceThreshold.getD 0 ≤ v) →
      ∃ blockers, blockers ≠ [] ∧
        lights_on cfg env st =
          ({ st with logs := st.logs ++ [LogEvent.illumBright blockers] }, none)) := by
  constructor
  · intro h
    obtain ⟨s, hn, hres⟩ := illumCheck_parseFail cfg env cfg.illuminanceSensors [] h
    exact ⟨s, hn, by simp [lights_on, hthr, hres]⟩
  · intro hall hwit
    have hres := illumCheck_all_some cfg env cfg.illuminanceSensors [] hall
    rw [List.nil_append] at hres
    obtain ⟨s, hsmem, v, hv, hcmp⟩ := hwit
    have hsfil : s ∈ cfg.illuminanceSensors.filter (fun s =>
        decide (cfg.illuminanceThreshold.getD 0 ≤ (env.numReading s).getD 0)) := by
      apply List.mem_filter.mpr
      refine ⟨hsmem, ?_⟩
      simp [hv, hcmp]
    have hne : cfg.illuminanceSensors.filter (fun s =>
        decide (cfg.illuminanceThreshold.getD 0 ≤ (env.numReading s).getD 0)) ≠ [] :=
      List.ne_nil_of_mem hsfil
    rw [if_neg hne] at hres
    exact ⟨_, hne, by simp [lights_on, hthr, hres]⟩

/-- C4 witness: threshold 50 with a sensor reading 60 blocks turn-on
(Scenario C). -/
theorem automoli_C4_illuminance_gate_witness :
    isTruthy (some 50) = true ∧
    (∃ blockers, blockers ≠ [] ∧
      lights_on { cfgOn with illuminanceThreshold := some 50 }
        { envOn with numReading := fun _ => some 60 } st0 =
        ({ st0 with logs := st0.logs ++ [LogEvent.illumBright blockers] }, none)) :=
  ⟨by decide,
   (automoli_C4_illuminance_gate { cfgOn with illuminanceThreshold := some 50 }
     { envOn with numReading := fun _ => some 60 } st0 (by decide)).2
     (by intro s hs; rfl)
     ⟨"sensor.illumination_wz", by simp [cfgOn], 60, rfl, by decide⟩⟩

theorem refresh_timer_calls (st : AMState) : (refresh_timer st).calls = st.calls := by
  unfold refresh_timer
  by_cases h : st.active.delay = 0 <;> simp [h]

/-- C5: with a truthy humidity threshold and the engine enabled, a
humidity sensor whose numeric reading reaches the threshold blocks
turn-off: lights_off only re-arms the timer via refresh_timer (no turn
off call, one fresh handle carrying the same active delay when the delay
is nonzero); unreadable readings are skipped, so when every numeric
reading is below the threshold the turn-off proceeds whatever the
unreadable sensors say. -/
theorem automoli_C5_humidity_gate (cfg : Config) (env : Env) (st : AMState)
    (hthr : isTruthy cfg.humidityThreshold = true)
    (hdis : is_disabled cfg env = false) :
    ((∃ s ∈ cfg.humiditySensors, ∃ v, env.numReading s = some v ∧
        cfg.humidityThreshold.getD 0 ≤ v) →
      lights_off cfg env st =
        { refresh_timer st with
          logs := (refresh_timer st).logs ++ [LogEvent.humidityBlock] } ∧
      (lights_off cfg env st).calls = st.calls ∧
      (st.active.delay ≠ 0 →
        (lights_off cfg env st).handles = {(st.nextHandle, st.active.delay)})) ∧
    ((∀ s ∈ cfg.humiditySensors, ∀ v, env.numReading s = some v →
        v < cfg.humidityThreshold.getD 0) →
      (lights_off cfg env st).handles = ∅ ∧
      (anyLightOn cfg env = true →
        (lights_off cfg env st).calls = st.calls ++ cfg.lights.map Call.turn_off)) := by
  constructor
  · intro hwit
    obtain ⟨s, hsmem, v, hv, hcmp⟩ := hwit
    have hmemfil : s ∈ humidityBlocker cfg env := by
      unfold humidityBlocker
      rw [if_pos hthr]
      exact List.mem_filter.mpr ⟨hsmem, by simp [hv, hcmp]⟩
    have hbne : humidityBlocker cfg env ≠ [] := List.ne_nil_of_mem hmemfil
    have heq : lights_off cfg env st =
        { refresh_timer st with
          logs := (refresh_timer st).logs ++ [LogEvent.humidityBlock] } := by
      unfold lights_off
      rw [if_neg (by simp [hdis]), if_pos hbne]
    refine ⟨heq, ?_, ?_⟩
    · rw [heq]
      show (refresh_timer st).calls = st.calls
      exact refresh_timer_calls st
    · intro hdel
      rw [heq]
      show (refresh_timer st).handles = _
      rw [refresh_timer_handles, if_neg hdel]
  · intro hless
    have hbe : humidityBlocker cfg env = [] := by
      unfold humidityBlocker
      rw [if_pos hthr]
      apply List.filter_eq_nil_iff.mpr
      intro s hs
      cases hr : env.numReading s with
      | none => simp
      | some v =>
        have hv := hless s hs v hr
        simp
        omega
    have heq : lights_off cfg env st = lightsOffAction cfg env st := by
      unfold lights_off
      rw [if_neg (by simp [hdis]), if_neg (by simp [hbe])]
    constructor
    · rw [heq]
      unfold lightsOffAction
      split <;> rfl
    · intro hon
      rw [heq]
      unfold lightsOffAction
      rw [if_pos hon]

/-- C5 witness: humidity threshold 60 with a sensor reading 75 at timer
expiry re-arms the timer for the active delay and issues no turn-off
call (Scenario D). -/
theorem automoli_C5_humidity_gate_witness :
    isTruthy (some 60) = true ∧
    lights_off { cfgOn with humidityThreshold := some 60 }
      { envOn with numReading := fun _ => some 75 } stCex =
      { refresh_timer stCex with
        logs := (refresh_timer stCex).logs ++ [LogEvent.humidityBlock] } ∧
    (lights_off { cfgOn with humidityThreshold := some 60 }
      { envOn with numReading := fun _ => some 75 } stCex).handles =
      {(stCex.nextHandle, stCex.active.delay)} := by
  have h := (automoli_C5_humidity_gate { cfgOn with humidityThreshold := some 60 }
    { envOn with numReading := fun _ => some 75 } stCex (by decide) (by decide)).1
    ⟨"sensor.humidity_wz", by decide, 75, rfl, by decide⟩
  exact ⟨by decide, h.1, h.2.2 (by decide)⟩

/-- C10: a threshold whose configured value is falsy (0, like an absent
one) permanently disables its gate because the source tests the
threshold's truthiness: with a falsy illuminance threshold lights_on
skips the gate and runs the post-gate action whatever the sensors read,
and with a falsy humidity threshold (engine enabled) lights_off never
blocks on humidity and always runs its unblocked tail. -/
theorem automoli_C10_falsy_threshold (cfg : Config) (env : Env) (st : AMState) :
    isTruthy (some 0) = false ∧
    (isTruthy cfg.illuminanceThreshold = false →
      lights_on cfg env st = lightsOnAction cfg env st) ∧
    (isTruthy cfg.humidityThreshold = false → is_disabled cfg env = false →
      lights_off cfg env st = lightsOffAction cfg env st) := by
  refine ⟨rfl, ?_, ?_⟩
  · intro hthr
    unfold lights_on
    rw [if_neg (by simp [hthr])]
  · intro hthr hdis
    have hbe : humidityBlocker cfg env = [] := by
      unfold humidityBlocker
      rw [if_neg (by simp [hthr])]
    unfold lights_off
    rw [if_neg (by simp [hdis]), if_neg (by simp [hbe])]

/-- C10 witness: zero thresholds with sensors reading 1000 never block
either action. -/
theorem automoli_C10_falsy_threshold_witness :
    isTruthy (some 0) = false ∧
    lights_on { cfgOn with illuminanceThreshold := some 0 }
      { envOn with numReading := fun _ => some 1000 } st0 =
      lightsOnAction { cfgOn with illuminanceThreshold := some 0 }
        { envOn with numReading := fun _ => some 1000 } st0 ∧
    lights_off { cfgOn with humidityThreshold := some 0 }
      { envOn with numReading := fun _ => some 1000 } st0 =
      lightsOffAction { cfgOn with humidityThreshold := some 0 }
        { envOn with numReading := fun _ => some 1000 } st0 :=
  ⟨by decide,
   (automoli_C10_falsy_threshold { cfgOn with illuminanceThreshold := some 0 }
     { envOn with numReading := fun _ => some 1000 } st0).2.1 (by decide),
   (automoli_C10_falsy_threshold { cfgOn with humidityThreshold := some 0 }
     { envOn with numReading := fun _ => some 1000 } st0).2.2 (by decide) (by decide)⟩

/-- Membership of now in the half-open wrap-around interval from s to e
(the spec's [start_i, start_(i+1) mod n) reading; s = e denotes the full
day, which only arises for a single-entry schedule). -/
def inHalfOpen (s e now : Nat) : Bool :=
  if s < e then decide (s ≤ now) && decide (now < e)
  else if e < s then decide (s ≤ now) || decide (now < e)
  else true

/-- A raw daytime entry carrying only a start time, as rendered in the
configuration (HH:MM). -/
def mkRaw (t : Nat) : RawDaytime := { starttime := some (fmtTime t) }

/-- The now_is_between test the builder runs for entry i of a schedule
given by its start times. -/
def nowBetweenAt (ts : List Nat) (now i : Nat) : Bool :=
  nowIsBetween (ts.getD i 0) (ts.getD ((i + 1) % ts.length) 0) now

/-- Half-open-interval membership for entry i of a schedule given by its
start times. -/
def halfOpenAt (ts : List Nat) (now i : Nat) : Bool :=
  inHalfOpen (ts.getD i 0) (ts.getD ((i + 1) % ts.length) 0) now

/-- The processed daytime the builder produces for entry i of a schedule
of bare start times. -/
def entryAt (cfg : Config) (env : Env) (ts : List Nat) (i : Nat) : DaytimeCfg :=
  dtEntry cfg env (mkRaw (ts.getD i 0)) i (ts.getD i 0)

/-- The daytime installed by the builder loop from position k on, given
the daytime already installed: the last entry from position k whose
now_is_between test succeeds wins. -/
def tailActive (cfg : Config) (env : Env) (ts : List Nat) (now k : Nat)
    (active : Option DaytimeCfg) : Option DaytimeCfg :=
  (List.range' k (ts.length - k)).foldl
    (fun acc j => if nowBetweenAt ts now j then some (entryAt cfg env ts j) else acc)
    active

theorem digit_roundtrip (d : Nat) (hd : d < 10) : digitVal (digitChar d) = some d := by
  interval_cases d <;> rfl

theorem parse2_roundtrip (n : Nat) (hn : n < 100) :
    parse2 (digitChar (n / 10)) (digitChar (n % 10)) = some n := by
  unfold parse2
  rw [digit_roundtrip (n / 10) (by omega), digit_roundtrip (n % 10) (by omega)]
  show some (10 * (n / 10) + n % 10) = some n
  exact congrArg some (by omega)

theorem parseTime_fmt {t : Nat} (h1 : t < 86400) (h2 : t % 60 = 0) :
    parseTime (fmtTime t ++ (":00")) = some t := by
  unfold parseTime
  rw [String.data_append]
  have hdata : (fmtTime t).data = [digitChar (t / 3600 / 10), digitChar (t / 3600 % 10),
      ':', digitChar (t % 3600 / 60 / 10), digitChar (t % 3600 / 60 % 10)] := rfl
  have h3 : (String.data (":00")) = [':', '0', '0'] := rfl
  rw [hdata, h3]
  simp only [List.cons_append, List.nil_append]
  simp only [parseTimeL]
  have h00 : parse2 ('0') ('0') = some 0 := rfl
  rw [if_pos ⟨trivial, trivial⟩, parse2_roundtrip (t / 3600) (by omega),
    parse2_roundtrip (t % 3600 / 60) (by omega), h00]
  simp only
  rw [if_pos ⟨by omega, by omega, by omega⟩]
  exact congrArg some (by omega)

theorem sorted_getD_lt {ts : List Nat} (hsort : ts.Pairwise (· < ·))
    {i j : Nat} (hij : i < j) (hj : j < ts.length) :
    ts.getD i 0 < ts.getD j 0 := by
  have hi : i < ts.length := lt_trans hij hj
  rw [List.getD_eq_getElem ts 0 hi, List.getD_eq_getElem ts 0 hj]
  exact List.pairwise_iff_getElem.mp hsort i j hi hj hij

theorem sorted_getD_le {ts : List Nat} (hsort : ts.Pairwise (· < ·))
    {i j : Nat} (hij : i ≤ j) (hj : j < ts.length) :
    ts.getD i 0 ≤ ts.getD j 0 := by
  rcases Nat.eq_or_lt_of_le hij with rfl | hlt
  · exact le_refl _
  · exact le_of_lt (sorted_getD_lt hsort hlt hj)

theorem halfOpen_to_between {ts : List Nat} (hsort : ts.Pairwise (· < ·))
    (hlen : 2 ≤ ts.length) {now i : Nat} (hi : i < ts.length)
    (h : halfOpenAt ts now i = true) : nowBetweenAt ts now i = true := by
  unfold halfOpenAt inHalfOpen at h
  unfold nowBetweenAt nowIsBetween
  by_cases hcase : i + 1 < ts.length
  · have hmod : (i + 1) % ts.length = i + 1 := Nat.mod_eq_of_lt hcase
    rw [hmod] at h ⊢
    have hse : ts.getD i 0 < ts.getD (i + 1) 0 :=
      sorted_getD_lt hsort (Nat.lt_succ_self i) hcase
    rw [if_pos hse] at h
    rw [if_neg (by omega)]
    simp only [Bool.and_eq_true, decide_eq_true_eq] at h ⊢
    omega
  · have hmod : (i + 1) % ts.length = 0 := by
      have hx : i + 1 = ts.length := by omega
      rw [hx, Nat.mod_self]
    rw [hmod] at h ⊢
    have hse : ts.getD 0 0 < ts.getD i 0 := sorted_getD_lt hsort (by omega) hi
    rw [if_neg (by omega), if_pos hse] at h
    rw [if_pos hse]
    simp only [Bool.or_eq_true, decide_eq_true_eq] at h ⊢
    omega

theorem after_owner_no_match {ts : List Nat} (hsort : ts.Pairwise (· < ·))
    {now i : Nat} (hi : i < ts.length)
    (h : halfOpenAt ts now i = true) (hne : now ≠ ts.getD 0 0) :
    ∀ j, i < j → j < ts.length → nowBetweenAt ts now j = false := by
  intro j hij hj
  have hcase : i + 1 < ts.length := by omega
  have hmod : (i + 1) % ts.length = i + 1 := Nat.mod_eq_of_lt hcase
  unfold halfOpenAt inHalfOpen at h
  rw [hmod] at h
  have hse : ts.getD i 0 < ts.getD (i + 1) 0 :=
    sorted_getD_lt hsort (Nat.lt_succ_self i) hcase
  rw [if_pos hse] at h
  simp only [Bool.and_eq_true, decide_eq_true_eq] at h
  obtain ⟨hlow, hhigh⟩ := h
  have hle1 : ts.getD (i + 1) 0 ≤ ts.getD j 0 := sorted_getD_le hsort (by omega) hj
  unfold nowBetweenAt nowIsBetween
  by_cases hjcase : j + 1 < ts.length
  · have hmodj : (j + 1) % ts.length = j + 1 := Nat.mod_eq_of_lt hjcase
    rw [hmodj]
    have hsej : ts.getD j 0 < ts.getD (j + 1) 0 :=
      sorted_getD_lt hsort (Nat.lt_succ_self j) hjcase
    rw [if_neg (by omega)]
    refine Bool.eq_false_iff.mpr (fun habs => ?_)
    simp only [Bool.and_eq_true, decide_eq_true_eq] at habs
    omega
  · have hmodj : (j + 1) % ts.length = 0 := by
      have hx : j + 1 = ts.length := by omega
      rw [hx, Nat.mod_self]
    rw [hmodj]
    have hsej : ts.getD 0 0 < ts.getD j 0 := sorted_getD_lt hsort (by omega) hj
    rw [if_pos hsej]
    refine Bool.eq_false_iff.mpr (fun habs => ?_)
    simp only [Bool.or_eq_true, decide_eq_true_eq] at habs
    have h0i : ts.getD 0 0 ≤ ts.getD i 0 := sorted_getD_le hsort (Nat.zero_le i) hi
    rcases habs with hcase1 | hcase2
    · omega
    · exact hne (by omega)

theorem halfOpen_unique {ts : List Nat} (hsort : ts.Pairwise (· < ·))
    {now i j : Nat} (hi : i < ts.length) (hj : j < ts.length)
    (h1 : halfOpenAt ts now i = true) (h2 : halfOpenAt ts now j = true) : i = j := by
  by_contra hne
  wlog hij : i < j generalizing i j
  · exact this hj hi h2 h1 (fun heq => hne heq.symm) (by omega)
  have hcase : i + 1 < ts.length := by omega
  have hmod : (i + 1) % ts.length = i + 1 := Nat.mod_eq_of_lt hcase
  unfold halfOpenAt inHalfOpen at h1 h2
  rw [hmod] at h1
  have hse : ts.getD i 0 < ts.getD (i + 1) 0 :=
    sorted_getD_lt hsort (Nat.lt_succ_self i) hcase
  rw [if_pos hse] at h1
  simp only [Bool.and_eq_true, decide_eq_true_eq] at h1
  obtain ⟨hlow, hhigh⟩ := h1
  have hle1 : ts.getD (i + 1) 0 ≤ ts.getD j 0 := sorted_getD_le hsort (by omega) hj
  by_cases hjcase : j + 1 < ts.length
  · have hmodj : (j + 1) % ts.length = j + 1 := Nat.mod_eq_of_lt hjcase
    rw [hmodj] at h2
    have hsej : ts.getD j 0 < ts.getD (j + 1) 0 :=
      sorted_getD_lt hsort (Nat.lt_succ_self j) hjcase
    rw [if_pos hsej] at h2
    simp only [Bool.and_eq_true, decide_eq_true_eq] at h2
    omega
  · have hmodj : (j + 1) % ts.length = 0 := by
      have hx : j + 1 = ts.length := by omega
      rw [hx, Nat.mod_self]
    rw [hmodj] at h2
    have hsej : ts.getD 0 0 < ts.getD j 0 := sorted_getD_lt hsort (by omega) hj
    rw [if_neg (by omega), if_pos hsej] at h2
    simp only [Bool.or_eq_true, decide_eq_true_eq] at h2
    have h0i : ts.getD 0 0 ≤ ts.getD i 0 := sorted_getD_le hsort (Nat.zero_le i) hi
    rcases h2 with hcase1 | hcase2 <;> omega

theorem exists_greatest_in_range (P : Nat → Prop) [DecidablePred P] :
    ∀ n, 1 ≤ n → P 0 → ∃ k, k < n ∧ P k ∧ (k + 1 < n → ¬ P (k + 1)) := by
  intro n
  induction n with
  | zero => omega
  | succ n ih =>
    intro h1 hP0
    by_cases hn : n = 0
    · subst hn
      exact ⟨0, by omega, hP0, by omega⟩
    · by_cases hPn : P n
      · exact ⟨n, by omega, hPn, by omega⟩
      · obtain ⟨k, hk1, hk2, hk3⟩ := ih (by omega) hP0
        refine ⟨k, by omega, hk2, ?_⟩
        intro hlt
        by_cases hceq : k + 1 = n
        · rw [hceq]
          exact hPn
        · exact hk3 (by omega)

theorem halfOpen_exists {ts : List Nat} (hsort : ts.Pairwise (· < ·))
    (hlen : 1 ≤ ts.length) (now : Nat) :
    ∃ i, i < ts.length ∧ halfOpenAt ts now i = true := by
  by_cases hn1 : ts.length = 1
  · refine ⟨0, by omega, ?_⟩
    unfold halfOpenAt inHalfOpen
    have hmod : (0 + 1) % ts.length = 0 := by rw [hn1]
    rw [hmod]
    rw [if_neg (by omega), if_neg (by omega)]
  · have hlen2 : 2 ≤ ts.length := by omega
    by_cases hlow : ts.getD 0 0 ≤ now
    · obtain ⟨k, hk_lt, hPk, hgr⟩ :=
        exists_greatest_in_range (fun j => ts.getD j 0 ≤ now) ts.length
          (by omega) hlow
      refine ⟨k, hk_lt, ?_⟩
      unfold halfOpenAt inHalfOpen
      by_cases hkc : k + 1 < ts.length
      · have hmod : (k + 1) % ts.length = k + 1 := Nat.mod_eq_of_lt hkc
        rw [hmod]
        have hnP : ¬ (ts.getD (k + 1) 0 ≤ now) := hgr hkc
        have hse : ts.getD k 0 < ts.getD (k + 1) 0 :=
          sorted_getD_lt hsort (Nat.lt_succ_self k) hkc
        rw [if_pos hse]
        simp only [Bool.and_eq_true, decide_eq_true_eq]
        exact ⟨hPk, by omega⟩
      · have hmod : (k + 1) % ts.length = 0 := by
          have hx : k + 1 = ts.length := by omega
          rw [hx, Nat.mod_self]
        rw [hmod]
        have hse : ts.getD 0 0 < ts.getD k 0 := sorted_getD_lt hsort (by omega) (by omega)
        rw [if_neg (by omega), if_pos hse]
        simp only [Bool.or_eq_true, decide_eq_true_eq]
        exact Or.inl hPk
    · refine ⟨ts.length - 1, by omega, ?_⟩
      unfold halfOpenAt inHalfOpen
      have hmod : (ts.length - 1 + 1) % ts.length = 0 := by
        have hx : ts.length - 1 + 1 = ts.length := by omega
        rw [hx, Nat.mod_self]
      rw [hmod]
      have hse : ts.getD 0 0 < ts.getD (ts.length - 1) 0 :=
        sorted_getD_lt hsort (by omega) (by omega)
      rw [if_neg (by omega), if_pos hse]
      simp only [Bool.or_eq_true, decide_eq_true_eq]
      right
      omega

theorem foldl_if_none {β : Type} (p : Nat → Bool) (f : Nat → β) :
    ∀ (l : List Nat) (a : Option β), (∀ j ∈ l, p j = false) →
      l.foldl (fun acc j => if p j then some (f j) else acc) a = a := by
  intro l
  induction l with
  | nil => intro a h; rfl
  | cons x rest ih =>
    intro a h
    rw [List.foldl_cons]
    have hx : p x = false := h x (List.mem_cons_self x rest)
    simp only [hx, Bool.false_eq_true, if_false]
    exact ih a (fun j hj => h j (List.mem_cons_of_mem x hj))

theorem tailActive_none (cfg : Config) (env : Env) (ts : List Nat) (now : Nat) {k : Nat}
    (h : ∀ j, k ≤ j → j < ts.length → nowBetweenAt ts now j = false)
    (active : Option DaytimeCfg) : tailActive cfg env ts now k active = active := by
  unfold tailActive
  apply foldl_if_none
  intro j hj
  rw [List.mem_range'] at hj
  obtain ⟨x, hx1, hx2⟩ := hj
  exact h j (by omega) (by omega)

theorem tailActive_last (cfg : Config) (env : Env) (ts : List Nat) (now : Nat)
    {k i : Nat} (hki : k ≤ i) (hin : i < ts.length)
    (hpi : nowBetweenAt ts now i = true)
    (hafter : ∀ j, i < j → j < ts.length → nowBetweenAt ts now j = false)
    (active : Option DaytimeCfg) :
    tailActive cfg env ts now k active = some (entryAt cfg env ts i) := by
  unfold tailActive
  have hsplit : List.range' k (ts.length - k) =
      List.range' k (i - k) ++ i :: List.range' (i + 1) (ts.length - (i + 1)) := by
    have h1 : List.range' i (ts.length - i) =
        i :: List.range' (i + 1) (ts.length - (i + 1)) := by
      have hx : ts.length - i = (ts.length - (i + 1)) + 1 := by omega
      rw [hx, List.range'_succ]
    calc List.range' k (ts.length - k)
        = List.range' k ((ts.length - i) + (i - k)) := by
          have hx : ts.length - k = (ts.length - i) + (i - k) := by omega
          rw [hx]
      _ = List.range' k (i - k) ++ List.range' (k + (i - k)) (ts.length - i) :=
          (List.range'_append_1 k (i - k) (ts.length - i)).symm
      _ = List.range' k (i - k) ++ i :: List.range' (i + 1) (ts.length - (i + 1)) := by
          have hx : k + (i - k) = i := by omega
          rw [hx, h1]
  rw [hsplit, List.foldl_append, List.foldl_cons]
  simp only [hpi, if_true]
  apply foldl_if_none
  intro j hj
  rw [List.mem_range'] at hj
  obtain ⟨x, hx1, hx2⟩ := hj
  exact hafter j (by omega) (by omega)

theorem buildLoop_run (cfg : Config) (env : Env) (now : Nat) (ts : List Nat)
    (hsort : ts.Pairwise (· < ·))
    (hbound : ∀ t ∈ ts, t < 86400 ∧ t % 60 = 0) :
    ∀ (rest : List RawDaytime) (k : Nat) (starttimes : List Nat)
      (active : Option DaytimeCfg) (sched : List (Nat × DaytimeCfg)),
      rest = (ts.map mkRaw).drop k →
      (∀ t ∈ starttimes, ∃ j, j < k ∧ j < ts.length ∧ t = ts.getD j 0) →
      ∃ sched2,
        buildLoop cfg env now (ts.map mkRaw) rest k starttimes active sched =
          .ok (tailActive cfg env ts now k active, sched2) := by
  intro rest
  induction rest with
  | nil =>
    intro k starttimes active sched hrest hst
    have hk : ts.length ≤ k := by
      have hlen := congrArg List.length hrest
      simp [List.length_drop] at hlen
      omega
    refine ⟨sched, ?_⟩
    have hta : tailActive cfg env ts now k active = active := by
      unfold tailActive
      have hx : ts.length - k = 0 := by omega
      rw [hx]
      rfl
    rw [hta]
    rfl
  | cons daytime rest2 ih =>
    intro k starttimes active sched hrest hst
    have hklt : k < ts.length := by
      by_contra hge
      push_neg at hge
      have hnil : (ts.map mkRaw).drop k = [] := by
        apply List.drop_eq_nil_of_le
        simpa using hge
      rw [hnil] at hrest
      exact List.noConfusion hrest
    have hmaplen : k < (ts.map mkRaw).length := by simpa using hklt
    rw [List.drop_eq_getElem_cons hmaplen] at hrest
    injection hrest with hday hrest2
    have hdayval : daytime = mkRaw (ts.getD k 0) := by
      rw [hday, List.getElem_map, List.getD_eq_getElem ts 0 hklt]
    have hmemk : ts.getD k 0 ∈ ts := by
      rw [List.getD_eq_getElem ts 0 hklt]
      exact List.getElem_mem hklt
    obtain ⟨hb1, hb2⟩ := hbound _ hmemk
    have hpt : parseTime (fmtTime (ts.getD k 0) ++ (":00")) = some (ts.getD k 0) :=
      parseTime_fmt hb1 hb2
    have hnlt : (k + 1) % ts.length < ts.length := Nat.mod_lt _ (by omega)
    have hmemn : ts.getD ((k + 1) % ts.length) 0 ∈ ts := by
      rw [List.getD_eq_getElem ts 0 hnlt]
      exact List.getElem_mem hnlt
    obtain ⟨hb3, hb4⟩ := hbound _ hmemn
    have hnmap : (ts.map mkRaw).getD ((k + 1) % (ts.map mkRaw).length) default =
        mkRaw (ts.getD ((k + 1) % ts.length) 0) := by
      have hnm : (k + 1) % ts.length < (ts.map mkRaw).length := by simpa using hnlt
      rw [List.length_map, List.getD_eq_getElem _ default hnm, List.getElem_map,
        List.getD_eq_getElem ts 0 hnlt]
    have hiso : parseIso (pyStr ((ts.map mkRaw).getD
        ((k + 1) % (ts.map mkRaw).length) default).starttime) =
        some (ts.getD ((k + 1) % ts.length) 0) := by
      rw [hnmap]
      show parseIso (fmtTime (ts.getD ((k + 1) % ts.length) 0)) = _
      exact parseTime_append_iso (parseTime_fmt hb3 hb4)
    have hnodup : ts.getD k 0 ∉ starttimes := by
      intro hmem
      obtain ⟨j, hj1, hj2, hj3⟩ := hst _ hmem
      have hlt := sorted_getD_lt hsort hj1 hklt
      omega
    have hst2 : ∀ t ∈ ts.getD k 0 :: starttimes,
        ∃ j, j < k + 1 ∧ j < ts.length ∧ t = ts.getD j 0 := by
      intro t hmem
      rcases List.mem_cons.mp hmem with rfl | hmem2
      · exact ⟨k, by omega, hklt, rfl⟩
      · obtain ⟨j, hj1, hj2, hj3⟩ := hst _ hmem2
        exact ⟨j, by omega, hj2, hj3⟩
    obtain ⟨sched2, hs2⟩ := ih (k + 1) (ts.getD k 0 :: starttimes)
      (if nowBetweenAt ts now k then some (entryAt cfg env ts k) else active)
      (sched ++ [(ts.getD k 0, entryAt cfg env ts k)]) hrest2 hst2
    refine ⟨sched2, ?_⟩
    have hta : tailActive cfg env ts now k active =
        tailActive cfg env ts now (k + 1)
          (if nowBetweenAt ts now k then some (entryAt cfg env ts k) else active) := by
      unfold tailActive
      have hx : ts.length - k = (ts.length - (k + 1)) + 1 := by omega
      rw [hx, List.range'_succ, List.foldl_cons]
    rw [hta, ← hs2, hdayval]
    simp only [buildLoop, mkRaw, hpt, hiso]
    rw [if_neg hnodup]
    rfl

/-- C8 counterexample: for the sorted two-entry schedule 08:00 / 20:00
and now exactly 08:00, the unique half-open interval containing now is
entry 0, but because now_is_between is inclusive at both ends the
midnight-wrapping entry 1 also matches and, being processed later, is the
daytime actually installed as self.active at construction. -/
theorem automoli_C8_cex :
    halfOpenAt [28800, 72000] 28800 0 = true ∧
    halfOpenAt [28800, 72000] 28800 1 = false ∧
    build_daytimes cfgOn envOn 28800 [mkRaw 28800, mkRaw 72000] =
      .ok (some { daytime := "daytime_1"
                  delay := 150
                  starttime := 72000
                  light_setting := .int 100
                  is_hue_group := false },
           [(28800, { daytime := "daytime_0"
                      delay := 150
                      starttime := 28800
                      light_setting := .int 100
                      is_hue_group := false }),
            (72000, { daytime := "daytime_1"
                      delay := 150
                      starttime := 72000
                      light_setting := .int 100
                      is_hue_group := false })]) := by
  refine ⟨by decide, by decide, ?_⟩
  rfl

/-- C8 (amended): over strictly sorted whole-minute start times, exactly
one entry's half-open interval contains now; at construction the builder
installs that entry as self.active whenever the schedule has at least two
entries and now is not exactly the earliest start time; at now equal to
the earliest start time the inclusive now_is_between checks also match
the midnight-wrapping last entry, which wins as the last match; and a
single-entry schedule installs nothing unless now equals its start
time. -/
theorem automoli_C8_amended (cfg : Config) (env : Env) (ts : List Nat)
    (hsort : ts.Pairwise (· < ·))
    (hbound : ∀ t ∈ ts, t < 86400 ∧ t % 60 = 0) (now : Nat) :
    (1 ≤ ts.length →
      ∃! i : Fin ts.length, halfOpenAt ts now i.val = true) ∧
    (2 ≤ ts.length → ∀ i, i < ts.length → halfOpenAt ts now i = true →
      now ≠ ts.getD 0 0 →
      ∃ sched, build_daytimes cfg env now (ts.map mkRaw) =
        .ok (some (entryAt cfg env ts i), sched)) ∧
    (2 ≤ ts.length → now = ts.getD 0 0 →
      ∃ sched, build_daytimes cfg env now (ts.map mkRaw) =
        .ok (some (entryAt cfg env ts (ts.length - 1)), sched)) ∧
    (ts.length = 1 → now ≠ ts.getD 0 0 →
      ∃ sched, build_daytimes cfg env now (ts.map mkRaw) = .ok (none, sched)) := by
  refine ⟨?_, ?_, ?_, ?_⟩
  · intro hlen
    obtain ⟨i, hi, hh⟩ := halfOpen_exists hsort hlen now
    refine ⟨⟨i, hi⟩, hh, ?_⟩
    intro y hy
    exact Fin.ext (halfOpen_unique hsort y.isLt hi hy hh)
  · intro hlen2 i hi hh hne
    have hbet : nowBetweenAt ts now i = true := halfOpen_to_between hsort hlen2 hi hh
    have hafter := after_owner_no_match hsort hi hh hne
    obtain ⟨sched2, hs⟩ := buildLoop_run cfg env now ts hsort hbound
      (ts.map mkRaw) 0 [] none [] (List.drop_zero _).symm (by simp)
    refine ⟨sched2, ?_⟩
    unfold build_daytimes
    rw [hs, tailActive_last cfg env ts now (Nat.zero_le i) hi hbet hafter none]
  · intro hlen2 heq
    have hi : ts.length - 1 < ts.length := by omega
    have hbet : nowBetweenAt ts now (ts.length - 1) = true := by
      unfold nowBetweenAt nowIsBetween
      have hmod : (ts.length - 1 + 1) % ts.length = 0 := by
        have hx : ts.length - 1 + 1 = ts.length := by omega
        rw [hx, Nat.mod_self]
      rw [hmod]
      have hse : ts.getD 0 0 < ts.getD (ts.length - 1) 0 :=
        sorted_getD_lt hsort (by omega) (by omega)
      rw [if_pos hse]
      simp only [Bool.or_eq_true, decide_eq_true_eq]
      right
      omega
    have hafter : ∀ j, ts.length - 1 < j → j < ts.length →
        nowBetweenAt ts now j = false := by
      intro j hj1 hj2
      omega
    obtain ⟨sched2, hs⟩ := buildLoop_run cfg env now ts hsort hbound
      (ts.map mkRaw) 0 [] none [] (List.drop_zero _).symm (by simp)
    refine ⟨sched2, ?_⟩
    unfold build_daytimes
    rw [hs, tailActive_last cfg env ts now (Nat.zero_le _) hi hbet hafter none]
  · intro hlen1 hne
    have hnone : ∀ j, 0 ≤ j → j < ts.length → nowBetweenAt ts now j = false := by
      intro j hj1 hj2
      have hj0 : j = 0 := by omega
      subst hj0
      unfold nowBetweenAt nowIsBetween
      have hmod : (0 + 1) % ts.length = 0 := by rw [hlen1]
      rw [hmod]
      rw [if_neg (by omega)]
      refine Bool.eq_false_iff.mpr (fun habs => ?_)
      simp only [Bool.and_eq_true, decide_eq_true_eq] at habs
      exact hne (by omega)
    obtain ⟨sched2, hs⟩ := buildLoop_run cfg env now ts hsort hbound
      (ts.map mkRaw) 0 [] none [] (List.drop_zero _).symm (by simp)
    refine ⟨sched2, ?_⟩
    unfold build_daytimes
    rw [hs, tailActive_none cfg env ts now hnone none]

/-- C8 amended witness at the default four-daytime schedule with now
08:00: the day entry (index 1) owns now and is installed. -/
theorem automoli_C8_amended_witness :
    ([19800, 27000, 73800, 81000] : List Nat).Pairwise (· < ·) ∧
    halfOpenAt [19800, 27000, 73800, 81000] 28800 1 = true ∧
    (∃! i : Fin ([19800, 27000, 73800, 81000] : List Nat).length,
      halfOpenAt [19800, 27000, 73800, 81000] 28800 i.val = true) ∧
    (∃ sched, build_daytimes cfgOn envOn 28800
      (([19800, 27000, 73800, 81000] : List Nat).map mkRaw) =
      .ok (some (entryAt cfgOn envOn [19800, 27000, 73800, 81000] 1), sched)) := by
  refine ⟨by decide, by decide, ?_, ?_⟩
  · exact (automoli_C8_amended cfgOn envOn [19800, 27000, 73800, 81000]
      (by decide) (by decide) 28800).1 (by decide)
  · exact (automoli_C8_amended cfgOn envOn [19800, 27000, 73800, 81000]
      (by decide) (by decide) 28800).2.1 (by decide) 1 (by decide) (by decide) (by decide)
